import Mathlib

/-!
# Verification of the ucinetwork duplex relay

Shallow embedding of the two programs in this repository:

* `src/uciclient.rs` — connects to a server, pumps terminal stdin to the
  socket (appending a newline per line, optionally teeing to a log with a
  `>> ` marker, detecting the `quit` line) and pumps the socket to terminal
  stdout (100 ms read timeout, shutdown-flag polling, `<< ` log marker).
* `src/uciserver.rs` — accepts a connection, spawns the engine subprocess,
  pumps socket to engine stdin and engine stdout to socket with plain
  blocking reads, then kills and reaps the child.

I/O is modelled by event lists chosen by the environment: each read
yields a chunk / line, end of stream, a timeout (client inbound only —
the client sets a 100 ms read timeout, the server sets none), or an
error; each write or lock acquisition carries its success as a Boolean
decided by the environment.  Bytes are `List Nat` (a line's bytes are its
characters' code points).  Each pump is a step function on an explicit
state, mirroring the corresponding Rust loop body statement by statement.
-/

/-- The bytes of a string, one `Nat` per character (`as_bytes` in the source;
code points stand in for UTF-8 bytes). -/
def strBytes (s : String) : List Nat := s.data.map Char.toNat

/-- Rust's `str::trim`: the string with leading and trailing whitespace
removed (modelled over the character list; `String.trim` of Lean is
avoided only because its implementation does not reduce in the kernel). -/
def trimStr (s : String) : String :=
  String.mk (((s.data.dropWhile Char.isWhitespace).reverse.dropWhile Char.isWhitespace).reverse)

namespace Client

/-- The `struct Config` of `uciclient.rs` (lines 11-16). -/
structure Config where
  server_address : String
  logfile : String
  enable_logging : Bool
deriving DecidableEq

/-- One result of the stdin line iterator in `stdin_thread`
(`uciclient.rs` line 71): a line (without its newline, as `BufRead::lines`
yields it) together with the environment-chosen outcomes of the socket
`write_all` (`wOk`, line 77), the log lock acquisition (`lok`, line 84)
and the two log writes (`mOk` for the `>> ` marker, line 85; `pOk` for
the payload, line 86); or a read error (line 98). -/
inductive StdinEv where
  | line (str : String) (wOk lok mOk pOk : Bool)
  | readErr
deriving DecidableEq

/-- One result of `read_stream.read` in `stdout_thread`
(`uciclient.rs` line 115): a chunk of `n > 0` bytes with the outcomes of
the stdout `write_all` (`sOk`, line 118 — ignored by the code), the log
lock (`lok`, line 123) and the two log writes (`mOk` marker / `pOk`
payload, lines 124-125); or `Ok(0)` (peer closed, line 116); or a
`WouldBlock`/`TimedOut` error (line 130); or any other read error
(line 135). -/
inductive NetEv where
  | chunk (d : List Nat) (sOk lok mOk pOk : Bool)
  | eof
  | timeout
  | readErr
deriving DecidableEq

/-- The observable state of one client relay session: the shared shutdown
flag (`uciclient.rs` line 57), the pending environment events for each
pump, the bytes written to the socket (`sent`), to terminal stdout
(`stdoutBytes`) and to the log file (`log`, flat — the file is a plain
append-only byte stream), and whether each pump's loop has exited. -/
structure RelayState where
  shutdown : Bool
  stdinEvs : List StdinEv
  netEvs : List NetEv
  sent : List Nat
  stdoutBytes : List Nat
  log : List Nat
  stdinDone : Bool
  stdoutDone : Bool
deriving DecidableEq

/-- The read timeout the client installs on the socket before the pumps
start: `set_read_timeout(Some(Duration::from_millis(100)))`
(`uciclient.rs` line 48). -/
def readTimeoutMillis : Option Nat := some 100

/-- Whether `main` opens/creates the log file (`uciclient.rs` lines
30-40): the file is opened iff `enable_logging` is true; the pumps hold
`Some` log handle under exactly the same condition. -/
def logfileOpened (cfg : Config) : Bool := cfg.enable_logging

/-- Initial session state: flag `false` (`uciclient.rs` line 57), nothing
written anywhere, both pumps running, with the environment's events
pending. -/
def initState (stdinEvs : List StdinEv) (netEvs : List NetEv) : RelayState :=
  { shutdown := false, stdinEvs := stdinEvs, netEvs := netEvs,
    sent := [], stdoutBytes := [], log := [], stdinDone := false, stdoutDone := false }

/-- One iteration of the stdin→network loop (`uciclient.rs` lines 71-100):
take the next line result; on a line, send `line ++ "\n"` (breaking on a
write error before anything else happens), tee `>> ` plus the sent bytes
to the log when logging is enabled and the lock and each log write
succeed (log errors are discarded), then — only after a successful
send — set the shutdown flag and break if the trimmed line is `quit`;
on a read error or end of input, break. -/
def clientStdinStep (cfg : Config) (s : RelayState) : RelayState :=
  if s.stdinDone then s else
  match s.stdinEvs with
  | [] => { s with stdinDone := true }
  | StdinEv.readErr :: rest => { s with stdinEvs := rest, stdinDone := true }
  | StdinEv.line str wOk lok mOk pOk :: rest =>
    if !wOk then { s with stdinEvs := rest, stdinDone := true }
    else
      let bytes := strBytes (str ++ "\n")
      let log' := if cfg.enable_logging && lok then
          s.log ++ (if mOk then strBytes ">> " else []) ++ (if pOk then bytes else [])
        else s.log
      if trimStr str == "quit" then
        { s with stdinEvs := rest, sent := s.sent ++ bytes, log := log',
                 shutdown := true, stdinDone := true }
      else
        { s with stdinEvs := rest, sent := s.sent ++ bytes, log := log' }

/-- One iteration of the network→stdout loop (`uciclient.rs` lines
109-137): first re-check the shared shutdown flag and break if set
(before any read); otherwise take the next read result: a chunk is
written to stdout (the write's outcome is discarded) and teed with a
`<< ` marker when logging is enabled and the lock/log writes succeed;
`Ok(0)` or a non-timeout error breaks; a timeout merely re-enters the
loop (so the flag is re-checked before the next read).  An empty event
list models a read still in flight: nothing happens. -/
def clientStdoutStep (cfg : Config) (s : RelayState) : RelayState :=
  if s.stdoutDone then s
  else if s.shutdown then { s with stdoutDone := true }
  else
    match s.netEvs with
    | [] => s
    | NetEv.chunk d sOk lok mOk pOk :: rest =>
      { s with netEvs := rest,
               stdoutBytes := s.stdoutBytes ++ (if sOk then d else []),
               log := if cfg.enable_logging && lok then
                   s.log ++ (if mOk then strBytes "<< " else []) ++ (if pOk then d else [])
                 else s.log }
    | NetEv.eof :: rest => { s with netEvs := rest, stdoutDone := true }
    | NetEv.timeout :: rest => { s with netEvs := rest }
    | NetEv.readErr :: rest => { s with netEvs := rest, stdoutDone := true }

/-- Iterate the network→stdout pump alone for `n` loop iterations. -/
def clientStdoutRun (cfg : Config) : Nat → RelayState → RelayState
  | 0, s => s
  | n + 1, s => clientStdoutRun cfg n (clientStdoutStep cfg s)

/-- Iterate the stdin→network pump alone for `n` loop iterations. -/
def clientStdinRun (cfg : Config) : Nat → RelayState → RelayState
  | 0, s => s
  | n + 1, s => clientStdinRun cfg n (clientStdinStep cfg s)

/-- A whole client session as an arbitrary interleaving of the two pump
threads: each schedule entry picks which pump performs its next loop
iteration (`true` = stdin→network, `false` = network→stdout). -/
def clientRun (cfg : Config) : List Bool → RelayState → RelayState
  | [], s => s
  | c :: rest, s =>
      clientRun cfg rest (if c then clientStdinStep cfg s else clientStdoutStep cfg s)

end Client

namespace Server

/-- The `struct Config` of `uciserver.rs` (lines 9-13). -/
structure Config where
  engine : String
  bind_address : String
deriving DecidableEq

/-- One result of a read in either server pump (`uciserver.rs` lines
147-151 and 163-167): a chunk of `n > 0` bytes together with the
environment-chosen outcome of the destination `write_all` (`wOk`,
lines 152 / 168); or `Ok(0)` (end of stream); or a read error.  The
server installs no read timeout, so there is no timeout case. -/
inductive SrvEv where
  | chunk (d : List Nat) (wOk : Bool)
  | eof
  | readErr
deriving DecidableEq

/-- State of one server pump loop: pending read results, bytes written to
the destination (engine stdin for `stdin_thread`, the socket for
`stdout_thread`), and whether the loop has exited. -/
structure SrvPumpState where
  evs : List SrvEv
  written : List Nat
  done : Bool
deriving DecidableEq

/-- The read timeout configured on the server's connection: the server
never calls `set_read_timeout`, so reads block indefinitely
(contrast `Client.readTimeoutMillis`). -/
def readTimeoutMillis : Option Nat := none

/-- One iteration of either server pump loop (`uciserver.rs` lines
146-156 and 162-172 — the two loops are textually identical): read;
`Ok(0)` or a read error breaks; on a chunk, `write_all` it to the
destination, breaking on a write error; the flush outcome is discarded.
There is no shutdown-flag check and no timeout branch.  An empty event
list models a read still blocking: nothing happens. -/
def srvPumpStep (s : SrvPumpState) : SrvPumpState :=
  if s.done then s else
  match s.evs with
  | [] => s
  | SrvEv.chunk d wOk :: rest =>
    if wOk then { evs := rest, written := s.written ++ d, done := false }
    else { s with evs := rest, done := true }
  | SrvEv.eof :: rest => { s with evs := rest, done := true }
  | SrvEv.readErr :: rest => { s with evs := rest, done := true }

/-- Iterate a server pump for `n` loop iterations. -/
def srvPumpRun : Nat → SrvPumpState → SrvPumpState
  | 0, s => s
  | n + 1, s => srvPumpRun n (srvPumpStep s)

/-- The engine child process as `handle_client` observes it: whether it
is still running and whether it has been reaped. -/
structure ChildState where
  running : Bool
  reaped : Bool
deriving DecidableEq

/-- Model of `cmd.spawn()` (`uciserver.rs` line 134): a fresh, running, unreaped
child. -/
def spawnChild : ChildState := { running := true, reaped := false }

/-- Model of `child.kill()` (`uciserver.rs` line 177): the child stops running
(its result is discarded by the caller). -/
def childKill (c : ChildState) : ChildState := { c with running := false }

/-- Model of `child.wait()` (`uciserver.rs` line 178): the child is reaped. -/
def childWait (c : ChildState) : ChildState := { c with reaped := true }

/-- What one `handle_client` call leaves behind: the child's final state,
the bytes delivered to the engine's stdin and the bytes delivered to the
socket. -/
structure Session where
  child : ChildState
  engineInBytes : List Nat
  netOutBytes : List Nat
deriving DecidableEq

/-- The function `handle_client` (`uciserver.rs` lines 119-179): spawn the engine,
run the network→engine and engine→network pumps to completion (each
given enough iterations to consume its events), join both, then
`kill` and `wait` the child. -/
def handle_client (netEvs engEvs : List SrvEv) : Session :=
  let child := spawnChild
  let netToEngine := srvPumpRun netEvs.length { evs := netEvs, written := [], done := false }
  let engineToNet := srvPumpRun engEvs.length { evs := engEvs, written := [], done := false }
  { child := childWait (childKill child),
    engineInBytes := netToEngine.written,
    netOutBytes := engineToNet.written }

end Server

/-- The actions each program performs after its relay loops, in program
order. -/
inductive SessionAct where
  | joinOutboundPump
  | joinInboundPump
  | shutdownBothDirs
  | killChild
  | waitChild
  | reportEnded
deriving DecidableEq

/-- End-of-session actions of the client's `main` (`uciclient.rs` lines
140-146): join the stdin→network (outbound) thread, join the
network→stdout (inbound) thread, shut the socket down in both directions
(`Shutdown::Both`, its result discarded — `sdErr` is the
environment-chosen outcome of that call, which the code ignores), then
print the disconnect notice. -/
def clientSessionEndActs (_sdErr : Bool) : List SessionAct :=
  [SessionAct.joinOutboundPump, SessionAct.joinInboundPump,
   SessionAct.shutdownBothDirs, SessionAct.reportEnded]

/-- End-of-session actions of the server (`uciserver.rs` lines 175-178,
then line 47 in `main`): join the network→engine (inbound) thread, join
the engine→network (outbound) thread, kill the child, wait for it, then
print the disconnect notice.  No socket shutdown call appears. -/
def serverSessionEndActs : List SessionAct :=
  [SessionAct.joinInboundPump, SessionAct.joinOutboundPump,
   SessionAct.killChild, SessionAct.waitChild, SessionAct.reportEnded]

/-- The function `parse_config_arg` (`uciclient.rs` lines 149-156 and `uciserver.rs`
lines 181-188, identical): scan the arguments left to right and return
the argument following the first `--config` that has one. -/
def parse_config_arg : List String → Option String
  | [] => none
  | a :: rest =>
    if a = "--config" then
      match rest with
      | b :: _ => some b
      | [] => none
    else parse_config_arg rest

/-- The configuration filename the client ends up loading
(`uciclient.rs` line 21). -/
def client_config_file (args : List String) : String :=
  (parse_config_arg args).getD "client.json"

/-- The configuration filename the server ends up loading
(`uciserver.rs` line 18). -/
def server_config_file (args : List String) : String :=
  (parse_config_arg args).getD "server.json"

/-! ## Specification-side helper functions

These describe the claims' quantities (the chunks a pump reads before its
stop condition, the success of the environment's writes, the spec's
characterisation of `--config` parsing) and are compared against the
embedded code. -/

/-- The chunks the client's network→stdout pump successfully reads from
its event list: every chunk before the first end-of-stream or read
error, timeouts skipped. -/
def clientChunksUpTo : List Client.NetEv → List (List Nat)
  | Client.NetEv.chunk d _ _ _ _ :: rest => d :: clientChunksUpTo rest
  | Client.NetEv.timeout :: rest => clientChunksUpTo rest
  | _ => []

/-- The chunks a server pump successfully reads from its event list:
every chunk before the first end-of-stream or read error. -/
def srvChunksUpTo : List Server.SrvEv → List (List Nat)
  | Server.SrvEv.chunk d _ :: rest => d :: srvChunksUpTo rest
  | _ => []

/-- All destination writes in a client inbound event list succeed. -/
def netWritesOk : List Client.NetEv → Bool
  | [] => true
  | Client.NetEv.chunk _ sOk _ _ _ :: rest => sOk && netWritesOk rest
  | _ :: rest => netWritesOk rest

/-- All destination writes in a server pump event list succeed. -/
def srvWritesOk : List Server.SrvEv → Bool
  | [] => true
  | Server.SrvEv.chunk _ wOk :: rest => wOk && srvWritesOk rest
  | _ :: rest => srvWritesOk rest

/-- The next stdin event is a successfully sent line whose trimmed text
is `quit` — the only circumstance in which the code stores into the
shutdown flag. -/
def quitHead : List Client.StdinEv → Bool
  | Client.StdinEv.line str true _ _ _ :: _ => trimStr str == "quit"
  | _ => false

/-- The claim's description of `parse_config_arg`: the argument
immediately following the first occurrence of `--config`, when such a
following argument exists; `none` otherwise. -/
def configFollowingFirst (args : List String) : Option String :=
  match args.dropWhile (fun a => a ≠ "--config") with
  | _ :: b :: _ => some b
  | _ => none

/-! ## Theorems -/

/-- Helper: `parse_config_arg` returns the argument following the first
`--config`, when one exists. -/
theorem parse_config_arg_eq_spec (args : List String) :
    parse_config_arg args = configFollowingFirst args := by
  induction args with
  | nil => rfl
  | cons a rest ih =>
    by_cases h : a = "--config"
    · subst h
      cases rest <;> rfl
    · simpa [parse_config_arg, configFollowingFirst, List.dropWhile, h] using ih

/-- C10: `parse_config_arg` returns the argument immediately following
the first `--config` when such a following argument exists and `none`
otherwise; a trailing `--config` with no follower is silently ignored,
so the default configuration filename (`client.json` / `server.json`)
is used. -/
theorem claim_C10_parse_config_arg_spec :
    (∀ args : List String, parse_config_arg args = configFollowingFirst args) ∧
    (∀ args : List String,
      client_config_file args = (configFollowingFirst args).getD "client.json" ∧
      server_config_file args = (configFollowingFirst args).getD "server.json") ∧
    parse_config_arg ["--config"] = none ∧
    client_config_file ["--config"] = "client.json" ∧
    server_config_file ["prog", "--config"] = "server.json" := by
  refine ⟨parse_config_arg_eq_spec, fun args => ?_, rfl, rfl, rfl⟩
  unfold client_config_file server_config_file
  rw [parse_config_arg_eq_spec]
  exact ⟨rfl, rfl⟩

/-- Helper: the network→stdout pump never modifies the shutdown flag. -/
theorem stdoutStep_shutdown_eq (cfg : Client.Config) (s : Client.RelayState) :
    (Client.clientStdoutStep cfg s).shutdown = s.shutdown := by
  unfold Client.clientStdoutStep
  split
  · rfl
  · split
    · rfl
    · split <;> rfl

/-- Helper: the stdin→network pump stores into the shutdown flag exactly
when it consumes a successfully sent line whose trimmed text is `quit`. -/
theorem stdinStep_shutdown_eq (cfg : Client.Config) (s : Client.RelayState) :
    (Client.clientStdinStep cfg s).shutdown =
      (s.shutdown || (!s.stdinDone && quitHead s.stdinEvs)) := by
  obtain ⟨sh, sie, nev, snt, sob, lg, sid, sod⟩ := s
  cases sid with
  | true => simp [Client.clientStdinStep, quitHead]
  | false =>
    cases sie with
    | nil => simp [Client.clientStdinStep, quitHead]
    | cons e rest =>
      cases e with
      | readErr => simp [Client.clientStdinStep, quitHead]
      | line str wOk lok mOk pOk =>
        cases wOk with
        | false => simp [Client.clientStdinStep, quitHead]
        | true =>
          cases hq : trimStr str == "quit" <;>
            simp [Client.clientStdinStep, quitHead, hq]

/-- C8: in every client session the shared shutdown signal starts
`false`; the inbound (network→stdout) pump never changes it — in
particular it leaves the signal untouched when it exits on a zero-byte
read or a read error — and the outbound (stdin→network) pump sets it
exactly when its `quit` branch fires on a successfully sent line whose
trimmed text is `quit`. -/
theorem claim_C8_shutdown_signal_discipline :
    (∀ (stdinEvs : List Client.StdinEv) (netEvs : List Client.NetEv),
      (Client.initState stdinEvs netEvs).shutdown = false) ∧
    (∀ (cfg : Client.Config) (s : Client.RelayState),
      (Client.clientStdoutStep cfg s).shutdown = s.shutdown) ∧
    (∀ (cfg : Client.Config) (s : Client.RelayState),
      (Client.clientStdinStep cfg s).shutdown =
        (s.shutdown || (!s.stdinDone && quitHead s.stdinEvs))) :=
  ⟨fun _ _ => rfl, stdoutStep_shutdown_eq, stdinStep_shutdown_eq⟩

/-- C7: logging is never observable to the pumps: for both directions,
the step's sent bytes, shutdown flag, loop-exit decision and consumption
of input are identical whatever the outcomes of the log lock acquisition
and the log writes (which the code discards). -/
theorem claim_C7_log_errors_swallowed :
    ∀ (cfg : Client.Config) (base : Client.RelayState)
      (str : String) (wOk l1 m1 p1 l2 m2 p2 : Bool) (rest : List Client.StdinEv)
      (d : List Nat) (sOk l3 m3 p3 l4 m4 p4 : Bool) (nrest : List Client.NetEv),
      ((Client.clientStdinStep cfg
          { base with stdinEvs := Client.StdinEv.line str wOk l1 m1 p1 :: rest }).sent =
       (Client.clientStdinStep cfg
          { base with stdinEvs := Client.StdinEv.line str wOk l2 m2 p2 :: rest }).sent ∧
       (Client.clientStdinStep cfg
          { base with stdinEvs := Client.StdinEv.line str wOk l1 m1 p1 :: rest }).shutdown =
       (Client.clientStdinStep cfg
          { base with stdinEvs := Client.StdinEv.line str wOk l2 m2 p2 :: rest }).shutdown ∧
       (Client.clientStdinStep cfg
          { base with stdinEvs := Client.StdinEv.line str wOk l1 m1 p1 :: rest }).stdinDone =
       (Client.clientStdinStep cfg
          { base with stdinEvs := Client.StdinEv.line str wOk l2 m2 p2 :: rest }).stdinDone ∧
       (Client.clientStdinStep cfg
          { base with stdinEvs := Client.StdinEv.line str wOk l1 m1 p1 :: rest }).stdinEvs.length =
       (Client.clientStdinStep cfg
          { base with stdinEvs := Client.StdinEv.line str wOk l2 m2 p2 :: rest }).stdinEvs.length) ∧
      ((Client.clientStdoutStep cfg
          { base with netEvs := Client.NetEv.chunk d sOk l3 m3 p3 :: nrest }).stdoutBytes =
       (Client.clientStdoutStep cfg
          { base with netEvs := Client.NetEv.chunk d sOk l4 m4 p4 :: nrest }).stdoutBytes ∧
       (Client.clientStdoutStep cfg
          { base with netEvs := Client.NetEv.chunk d sOk l3 m3 p3 :: nrest }).shutdown =
       (Client.clientStdoutStep cfg
          { base with netEvs := Client.NetEv.chunk d sOk l4 m4 p4 :: nrest }).shutdown ∧
       (Client.clientStdoutStep cfg
          { base with netEvs := Client.NetEv.chunk d sOk l3 m3 p3 :: nrest }).stdoutDone =
       (Client.clientStdoutStep cfg
          { base with netEvs := Client.NetEv.chunk d sOk l4 m4 p4 :: nrest }).stdoutDone ∧
       (Client.clientStdoutStep cfg
          { base with netEvs := Client.NetEv.chunk d sOk l3 m3 p3 :: nrest }).netEvs.length =
       (Client.clientStdoutStep cfg
          { base with netEvs := Client.NetEv.chunk d sOk l4 m4 p4 :: nrest }).netEvs.length) := by
  intro cfg base str wOk l1 m1 p1 l2 m2 p2 rest d sOk l3 m3 p3 l4 m4 p4 nrest
  obtain ⟨sh, sie, nev, snt, sob, lg, sid, sod⟩ := base
  constructor
  · cases sid <;> cases wOk <;> cases hq : trimStr str == "quit" <;>
      simp [Client.clientStdinStep, hq]
  · cases sod <;> cases sh <;> simp [Client.clientStdoutStep]

/-- C6: each terminal line the client's outbound pump sends is written
to the connection as exactly the line with a single trailing newline
appended, and with logging enabled the log receives the `>> ` marker
followed by exactly those sent bytes, newline included. -/
theorem claim_C6_sent_bytes_and_log_payload :
    ∀ (addr lf : String) (base : Client.RelayState) (str : String)
      (rest : List Client.StdinEv),
      (Client.clientStdinStep ⟨addr, lf, true⟩
          { base with stdinDone := false,
                      stdinEvs := Client.StdinEv.line str true true true true :: rest }).sent
        = base.sent ++ strBytes (str ++ "\n") ∧
      (Client.clientStdinStep ⟨addr, lf, true⟩
          { base with stdinDone := false,
                      stdinEvs := Client.StdinEv.line str true true true true :: rest }).log
        = base.log ++ (strBytes ">> " ++ strBytes (str ++ "\n")) := by
  intro addr lf base str rest
  cases hq : trimStr str == "quit" <;>
    simp [Client.clientStdinStep, hq, List.append_assoc]

/-- C3: after a server relay session, whatever the traffic in either
direction, the child has been killed and then reaped before
`handle_client` returns: the kill and wait happen after both pump joins
and before the session-ended report. -/
theorem claim_C3_child_killed_and_reaped :
    (∀ netEvs engEvs : List Server.SrvEv,
      (Server.handle_client netEvs engEvs).child.running = false ∧
      (Server.handle_client netEvs engEvs).child.reaped = true) ∧
    serverSessionEndActs.indexOf SessionAct.joinInboundPump <
      serverSessionEndActs.indexOf SessionAct.killChild ∧
    serverSessionEndActs.indexOf SessionAct.joinOutboundPump <
      serverSessionEndActs.indexOf SessionAct.killChild ∧
    serverSessionEndActs.indexOf SessionAct.killChild <
      serverSessionEndActs.indexOf SessionAct.waitChild ∧
    serverSessionEndActs.indexOf SessionAct.waitChild <
      serverSessionEndActs.indexOf SessionAct.reportEnded := by
  exact ⟨fun a b => ⟨rfl, rfl⟩, by decide, by decide, by decide, by decide⟩

/-- C5 counterexample: the claim asserts that in both roles the
connection is explicitly shut down for both directions after the joins;
the server's end-of-session sequence contains no such shutdown call
(`handle_client` only joins, kills and waits — the socket is closed
implicitly when its handles are dropped). -/
theorem claim_C5_counterexample :
    serverSessionEndActs.contains SessionAct.shutdownBothDirs = false := by decide

/-- C4 counterexample: a `quit` line whose socket write fails does not
set the shutdown signal — the write error breaks out of the loop before
the `quit` check runs — refuting the unconditional "the pump stores true
into the shared shutdown signal and exits" for that input. -/
theorem claim_C4_counterexample :
    (Client.clientStdinStep ⟨"127.0.0.1:6242", "uci.log", true⟩
        (Client.initState [Client.StdinEv.line "quit" false true true true] [])).shutdown
      = false ∧
    (Client.clientStdinStep ⟨"127.0.0.1:6242", "uci.log", true⟩
        (Client.initState [Client.StdinEv.line "quit" false true true true] [])).stdinDone
      = true := by
  exact ⟨rfl, rfl⟩

/-- C4 amended: for every input line whose trimmed content equals `quit`
and whose write to the connection succeeds, the outbound pump stores
true into the shared shutdown signal and exits its loop; if the write of
such a line fails the pump exits without setting the signal; a line not
trimming to `quit` leaves the signal unchanged and continues the loop
when its write succeeds, exits (signal unchanged) when its write fails,
and a read error exits with the signal unchanged. -/
theorem claim_C4_quit_sets_signal :
    ∀ (cfg : Client.Config) (base : Client.RelayState) (str : String)
      (lok mOk pOk : Bool) (rest : List Client.StdinEv),
      (trimStr str = "quit" →
        (Client.clientStdinStep cfg { base with
              stdinDone := false,
              stdinEvs := Client.StdinEv.line str true lok mOk pOk :: rest }).shutdown = true ∧
        (Client.clientStdinStep cfg { base with
              stdinDone := false,
              stdinEvs := Client.StdinEv.line str true lok mOk pOk :: rest }).stdinDone = true) ∧
      (trimStr str ≠ "quit" →
        (Client.clientStdinStep cfg { base with
              stdinDone := false,
              stdinEvs := Client.StdinEv.line str true lok mOk pOk :: rest }).shutdown
          = base.shutdown ∧
        (Client.clientStdinStep cfg { base with
              stdinDone := false,
              stdinEvs := Client.StdinEv.line str true lok mOk pOk :: rest }).stdinDone = false) ∧
      ((Client.clientStdinStep cfg { base with
              stdinDone := false,
              stdinEvs := Client.StdinEv.line str false lok mOk pOk :: rest }).shutdown
          = base.shutdown ∧
       (Client.clientStdinStep cfg { base with
              stdinDone := false,
              stdinEvs := Client.StdinEv.line str false lok mOk pOk :: rest }).stdinDone = true) ∧
      ((Client.clientStdinStep cfg { base with
              stdinDone := false,
              stdinEvs := Client.StdinEv.readErr :: rest }).shutdown = base.shutdown ∧
       (Client.clientStdinStep cfg { base with
              stdinDone := false,
              stdinEvs := Client.StdinEv.readErr :: rest }).stdinDone = true) := by
  intro cfg base str lok mOk pOk rest
  refine ⟨fun h => ?_, fun h => ?_, ?_, ?_⟩
  · constructor <;> simp [Client.clientStdinStep, h]
  · constructor <;> simp [Client.clientStdinStep, h]
  · constructor <;> simp [Client.clientStdinStep]
  · constructor <;> simp [Client.clientStdinStep]

/-- C4 witness: instantiating the quit branch at the line `quit` and the
non-quit branch at the line `go`. -/
theorem claim_C4_quit_sets_signal_witness :
    (Client.clientStdinStep ⟨"a", "l", false⟩
        { Client.initState [] [] with
            stdinDone := false,
            stdinEvs := [Client.StdinEv.line " quit " true true true true] }).shutdown = true ∧
    (Client.clientStdinStep ⟨"a", "l", false⟩
        { Client.initState [] [] with
            stdinDone := false,
            stdinEvs := [Client.StdinEv.line "go" true true true true] }).shutdown = false := by
  constructor
  · exact ((claim_C4_quit_sets_signal ⟨"a", "l", false⟩ (Client.initState [] []) " quit "
      true true true []).1 (by decide)).1
  · exact ((claim_C4_quit_sets_signal ⟨"a", "l", false⟩ (Client.initState [] []) "go"
      true true true []).2.1 (by decide)).1

/-- Helper: a pump whose loop has exited is inert. -/
theorem stdoutStep_of_done (cfg : Client.Config) (s : Client.RelayState)
    (h : s.stdoutDone = true) : Client.clientStdoutStep cfg s = s := by
  unfold Client.clientStdoutStep
  simp [h]

/-- Helper: with the shutdown flag set, the inbound pump's next loop
iteration exits without touching its source. -/
theorem stdoutStep_of_shutdown (cfg : Client.Config) (s : Client.RelayState)
    (hd : s.stdoutDone = false) (h : s.shutdown = true) :
    Client.clientStdoutStep cfg s = { s with stdoutDone := true } := by
  unfold Client.clientStdoutStep
  simp [hd, h]

/-- Helper: iterating an exited inbound pump changes nothing. -/
theorem stdoutRun_of_done (cfg : Client.Config) :
    ∀ (n : Nat) (s : Client.RelayState), s.stdoutDone = true →
      Client.clientStdoutRun cfg n s = s := by
  intro n
  induction n with
  | zero => exact fun s _ => rfl
  | succ k ih =>
    intro s h
    show Client.clientStdoutRun cfg k (Client.clientStdoutStep cfg s) = s
    rw [stdoutStep_of_done cfg s h]
    exact ih s h

/-- Helper: once the shutdown flag is set, any number of further inbound
iterations read nothing and write nothing. -/
theorem stdoutRun_shutdown_frozen (cfg : Client.Config) :
    ∀ (n : Nat) (s : Client.RelayState), s.shutdown = true →
      (Client.clientStdoutRun cfg n s).netEvs = s.netEvs ∧
      (Client.clientStdoutRun cfg n s).stdoutBytes = s.stdoutBytes ∧
      (Client.clientStdoutRun cfg n s).shutdown = true := by
  intro n
  induction n with
  | zero => exact fun s h => ⟨rfl, rfl, h⟩
  | succ k ih =>
    intro s h
    have key : (Client.clientStdoutStep cfg s).netEvs = s.netEvs ∧
        (Client.clientStdoutStep cfg s).stdoutBytes = s.stdoutBytes ∧
        (Client.clientStdoutStep cfg s).shutdown = true := by
      cases hd : s.stdoutDone with
      | false => rw [stdoutStep_of_shutdown cfg s hd h]; exact ⟨rfl, rfl, h⟩
      | true => rw [stdoutStep_of_done cfg s hd]; exact ⟨rfl, rfl, h⟩
    obtain ⟨e1, e2, e3⟩ := key
    have hrun : Client.clientStdoutRun cfg (k + 1) s
        = Client.clientStdoutRun cfg k (Client.clientStdoutStep cfg s) := rfl
    rw [hrun]
    obtain ⟨r1, r2, r3⟩ := ih (Client.clientStdoutStep cfg s) e3
    exact ⟨r1.trans e1, r2.trans e2, r3⟩

/-- C2 counterexample: the claim covers every relay session, but the
server role configures no read timeout at all (the client configures
100 ms) and its inbound pump has no shutdown signal: it happily performs
its next blocking read and write with no flag anywhere to consult. -/
theorem claim_C2_counterexample :
    Server.readTimeoutMillis = none ∧
    Client.readTimeoutMillis = some 100 ∧
    (Server.srvPumpStep
        { evs := [Server.SrvEv.chunk [113, 117, 105, 116] true],
          written := [], done := false }).written = [113, 117, 105, 116] := by
  exact ⟨rfl, rfl, rfl⟩

/-- C2 amended: in the client role the inbound pump's read is bounded by
a 100 ms timeout; at each loop top (hence directly after every timeout)
it re-checks the shared shutdown signal and, if set, exits without
attempting any further read; a timeout consumes nothing else; and once
the signal is set the pump never reads again and has exited by the next
iteration, so it terminates within one poll interval even if the peer
sends nothing.  The server-side pumps have no timeout and no shutdown
signal. -/
theorem claim_C2_client_poll_shutdown :
    Client.readTimeoutMillis = some 100 ∧
    Server.readTimeoutMillis = none ∧
    (∀ (cfg : Client.Config) (s : Client.RelayState),
      s.stdoutDone = false → s.shutdown = true →
      Client.clientStdoutStep cfg s = { s with stdoutDone := true }) ∧
    (∀ (cfg : Client.Config) (s : Client.RelayState) (rest : List Client.NetEv),
      s.stdoutDone = false → s.shutdown = false →
      s.netEvs = Client.NetEv.timeout :: rest →
      Client.clientStdoutStep cfg s = { s with netEvs := rest }) ∧
    (∀ (cfg : Client.Config) (n : Nat) (s : Client.RelayState),
      s.shutdown = true →
      (Client.clientStdoutRun cfg n s).netEvs = s.netEvs ∧
      (Client.clientStdoutRun cfg (n + 1) s).stdoutDone = true) := by
  refine ⟨rfl, rfl, stdoutStep_of_shutdown, fun cfg s rest hd h hne => ?_, fun cfg n s h => ?_⟩
  · unfold Client.clientStdoutStep
    rw [hne]
    simp [hd, h]
  · refine ⟨(stdoutRun_shutdown_frozen cfg n s h).1, ?_⟩
    have hrun : Client.clientStdoutRun cfg (n + 1) s
        = Client.clientStdoutRun cfg n (Client.clientStdoutStep cfg s) := rfl
    rw [hrun]
    cases hd : s.stdoutDone with
    | false =>
      rw [stdoutStep_of_shutdown cfg s hd h,
          stdoutRun_of_done cfg n { s with stdoutDone := true } rfl]
    | true =>
      rw [stdoutStep_of_done cfg s hd, stdoutRun_of_done cfg n s hd]
      exact hd

/-- C2 witness: the shutdown exit, the timeout re-poll and the
no-further-reads bound at concrete states. -/
theorem claim_C2_client_poll_shutdown_witness :
    Client.clientStdoutStep ⟨"a", "l", false⟩
        { Client.initState [] [Client.NetEv.timeout] with shutdown := true }
      = { Client.initState [] [Client.NetEv.timeout] with
            shutdown := true, stdoutDone := true } ∧
    Client.clientStdoutStep ⟨"a", "l", false⟩ (Client.initState [] [Client.NetEv.timeout])
      = { Client.initState [] [Client.NetEv.timeout] with netEvs := ([] : List Client.NetEv) } ∧
    (Client.clientStdoutRun ⟨"a", "l", false⟩ 1
        { Client.initState [] [] with shutdown := true }).stdoutDone = true := by
  refine ⟨claim_C2_client_poll_shutdown.2.2.1 ⟨"a", "l", false⟩ _ rfl rfl,
          claim_C2_client_poll_shutdown.2.2.2.1 ⟨"a", "l", false⟩ _ [] rfl rfl rfl,
          (claim_C2_client_poll_shutdown.2.2.2.2 ⟨"a", "l", false⟩ 0 _ rfl).2⟩

/-- C5 amended: in the client role, after both pump threads are joined
the connection is shut down for both directions — best-effort, the
call's outcome is ignored (the end-of-session actions are the same
whether it errors or not) — before the session is reported as ended;
the server role performs no explicit shutdown call. -/
theorem claim_C5_client_shutdown_after_joins :
    (∀ sdErr : Bool, clientSessionEndActs sdErr = clientSessionEndActs true) ∧
    SessionAct.shutdownBothDirs ∈ clientSessionEndActs true ∧
    (clientSessionEndActs true).indexOf SessionAct.joinOutboundPump <
      (clientSessionEndActs true).indexOf SessionAct.shutdownBothDirs ∧
    (clientSessionEndActs true).indexOf SessionAct.joinInboundPump <
      (clientSessionEndActs true).indexOf SessionAct.shutdownBothDirs ∧
    (clientSessionEndActs true).indexOf SessionAct.shutdownBothDirs <
      (clientSessionEndActs true).indexOf SessionAct.reportEnded ∧
    serverSessionEndActs.contains SessionAct.shutdownBothDirs = false := by
  exact ⟨fun sdErr => rfl, by decide, by decide, by decide, by decide, by decide⟩

/-- Helper: with logging disabled, the outbound pump never touches the
log. -/
theorem stdinStep_log_disabled (addr lf : String) (s : Client.RelayState) :
    (Client.clientStdinStep ⟨addr, lf, false⟩ s).log = s.log := by
  obtain ⟨sh, sie, nev, snt, sob, lg, sid, sod⟩ := s
  cases sid with
  | true => simp [Client.clientStdinStep]
  | false =>
    cases sie with
    | nil => simp [Client.clientStdinStep]
    | cons e rest =>
      cases e with
      | readErr => simp [Client.clientStdinStep]
      | line str wOk lok mOk pOk =>
        cases wOk with
        | false => simp [Client.clientStdinStep]
        | true =>
          cases hq : trimStr str == "quit" <;>
            simp [Client.clientStdinStep, hq]

/-- Helper: with logging disabled, the inbound pump never touches the
log. -/
theorem stdoutStep_log_disabled (addr lf : String) (s : Client.RelayState) :
    (Client.clientStdoutStep ⟨addr, lf, false⟩ s).log = s.log := by
  unfold Client.clientStdoutStep
  split
  · rfl
  · split
    · rfl
    · split <;> simp

/-- Helper: with logging disabled, any interleaving of the two pumps
leaves the log exactly as it started. -/
theorem clientRun_log_disabled (addr lf : String) :
    ∀ (sched : List Bool) (s : Client.RelayState),
      (Client.clientRun ⟨addr, lf, false⟩ sched s).log = s.log := by
  intro sched
  induction sched with
  | nil => exact fun s => rfl
  | cons c rest ih =>
    intro s
    have hrun : Client.clientRun ⟨addr, lf, false⟩ (c :: rest) s
        = Client.clientRun ⟨addr, lf, false⟩ rest
            (if c then Client.clientStdinStep ⟨addr, lf, false⟩ s
             else Client.clientStdoutStep ⟨addr, lf, false⟩ s) := rfl
    rw [hrun]
    cases c with
    | false => exact (ih _).trans (stdoutStep_log_disabled addr lf s)
    | true => exact (ih _).trans (stdinStep_log_disabled addr lf s)

/-- C9: with logging disabled the client opens no log file at startup,
and over every interleaving of the two pumps and every sequence of
traffic in either direction the log remains empty: no log bytes are ever
produced. -/
theorem claim_C9_no_log_when_disabled :
    ∀ (addr lf : String) (sched : List Bool)
      (stdinEvs : List Client.StdinEv) (netEvs : List Client.NetEv),
      Client.logfileOpened ⟨addr, lf, false⟩ = false ∧
      (Client.clientRun ⟨addr, lf, false⟩ sched
          (Client.initState stdinEvs netEvs)).log = [] :=
  fun addr lf sched a b => ⟨rfl, clientRun_log_disabled addr lf sched (Client.initState a b)⟩

/-- Helper: a server pump whose loop has exited is inert. -/
theorem srvPumpStep_of_done (s : Server.SrvPumpState) (h : s.done = true) :
    Server.srvPumpStep s = s := by
  unfold Server.srvPumpStep
  simp [h]

/-- Helper: iterating an exited server pump changes nothing. -/
theorem srvPumpRun_of_done :
    ∀ (n : Nat) (s : Server.SrvPumpState), s.done = true →
      Server.srvPumpRun n s = s := by
  intro n
  induction n with
  | zero => exact fun s _ => rfl
  | succ k ih =>
    intro s h
    show Server.srvPumpRun k (Server.srvPumpStep s) = s
    rw [srvPumpStep_of_done s h]
    exact ih s h

/-- Helper: when every destination write succeeds, a server pump
delivers exactly the concatenation of the chunks it reads before its
stop condition. -/
theorem srvPumpRun_written :
    ∀ (evs : List Server.SrvEv) (w : List Nat), srvWritesOk evs = true →
      (Server.srvPumpRun evs.length { evs := evs, written := w, done := false }).written
        = w ++ (srvChunksUpTo evs).flatten := by
  intro evs
  induction evs with
  | nil => intro w _; simp [Server.srvPumpRun, srvChunksUpTo]
  | cons e rest ih =>
    intro w h
    cases e with
    | chunk d wOk =>
      have hw : wOk = true := by
        simp [srvWritesOk] at h; exact h.1
      subst hw
      have hrest : srvWritesOk rest = true := by
        simp [srvWritesOk] at h; exact h
      have hstep : Server.srvPumpStep
          { evs := Server.SrvEv.chunk d true :: rest, written := w, done := false }
          = { evs := rest, written := w ++ d, done := false } := by
        simp [Server.srvPumpStep]
      show (Server.srvPumpRun rest.length (Server.srvPumpStep _)).written = _
      rw [hstep, ih (w ++ d) hrest]
      simp [srvChunksUpTo, List.append_assoc]
    | eof =>
      have hstep : Server.srvPumpStep
          { evs := Server.SrvEv.eof :: rest, written := w, done := false }
          = { evs := rest, written := w, done := true } := by
        simp [Server.srvPumpStep]
      show (Server.srvPumpRun rest.length (Server.srvPumpStep _)).written = _
      rw [hstep, srvPumpRun_of_done rest.length _ rfl]
      simp [srvChunksUpTo]
    | readErr =>
      have hstep : Server.srvPumpStep
          { evs := Server.SrvEv.readErr :: rest, written := w, done := false }
          = { evs := rest, written := w, done := true } := by
        simp [Server.srvPumpStep]
      show (Server.srvPumpRun rest.length (Server.srvPumpStep _)).written = _
      rw [hstep, srvPumpRun_of_done rest.length _ rfl]
      simp [srvChunksUpTo]

/-- Helper: when every stdout write succeeds, the client's inbound pump
delivers exactly the concatenation of the chunks it reads, in order. -/
theorem clientStdoutRun_written (cfg : Client.Config) :
    ∀ (evs : List Client.NetEv) (s : Client.RelayState),
      s.stdoutDone = false → s.shutdown = false → s.netEvs = evs →
      netWritesOk evs = true →
      (Client.clientStdoutRun cfg evs.length s).stdoutBytes
        = s.stdoutBytes ++ (clientChunksUpTo evs).flatten := by
  intro evs
  induction evs with
  | nil => intro s _ _ _ _; simp [Client.clientStdoutRun, clientChunksUpTo]
  | cons e rest ih =>
    intro s hd hs hne h
    obtain ⟨sh, sie, nev, snt, sob, lg, sid, sod⟩ := s
    simp only at hd hs hne
    subst hd; subst hs; subst hne
    cases e with
    | chunk d sOk lok mOk pOk =>
      have hw : sOk = true := by
        simp [netWritesOk] at h; exact h.1
      subst hw
      have hrest : netWritesOk rest = true := by
        simp [netWritesOk] at h; exact h
      have hstep : Client.clientStdoutStep cfg
          ⟨false, sie, Client.NetEv.chunk d true lok mOk pOk :: rest, snt, sob, lg, sid, false⟩
          = ⟨false, sie, rest, snt, sob ++ d,
              if cfg.enable_logging && lok then
                lg ++ (if mOk then strBytes "<< " else []) ++ (if pOk then d else [])
              else lg, sid, false⟩ := by
        simp [Client.clientStdoutStep]
      show (Client.clientStdoutRun cfg rest.length (Client.clientStdoutStep cfg _)).stdoutBytes = _
      rw [hstep, ih _ rfl rfl rfl hrest]
      simp [clientChunksUpTo, List.append_assoc]
    | eof =>
      have hstep : Client.clientStdoutStep cfg
          ⟨false, sie, Client.NetEv.eof :: rest, snt, sob, lg, sid, false⟩
          = ⟨false, sie, rest, snt, sob, lg, sid, true⟩ := by
        simp [Client.clientStdoutStep]
      show (Client.clientStdoutRun cfg rest.length (Client.clientStdoutStep cfg _)).stdoutBytes = _
      rw [hstep, stdoutRun_of_done cfg rest.length _ rfl]
      simp [clientChunksUpTo]
    | timeout =>
      have hstep : Client.clientStdoutStep cfg
          ⟨false, sie, Client.NetEv.timeout :: rest, snt, sob, lg, sid, false⟩
          = ⟨false, sie, rest, snt, sob, lg, sid, false⟩ := by
        simp [Client.clientStdoutStep]
      show (Client.clientStdoutRun cfg rest.length (Client.clientStdoutStep cfg _)).stdoutBytes = _
      rw [hstep, ih _ rfl rfl rfl h]
      simp [clientChunksUpTo]
    | readErr =>
      have hstep : Client.clientStdoutStep cfg
          ⟨false, sie, Client.NetEv.readErr :: rest, snt, sob, lg, sid, false⟩
          = ⟨false, sie, rest, snt, sob, lg, sid, true⟩ := by
        simp [Client.clientStdoutStep]
      show (Client.clientStdoutRun cfg rest.length (Client.clientStdoutStep cfg _)).stdoutBytes = _
      rw [hstep, stdoutRun_of_done cfg rest.length _ rfl]
      simp [clientChunksUpTo]

/-- C1: byte fidelity per direction when the destination accepts every
write: a server pump (the network→engine-stdin and engine-stdout→network
loops are the same code) writes exactly the concatenation of the chunks
it reads, in order, with no loss, duplication or reordering; the two
directions of a whole `handle_client` session deliver exactly their
respective concatenations; and the client's network→stdout pump does
the same, timeouts notwithstanding. -/
theorem claim_C1_byte_fidelity :
    (∀ evs : List Server.SrvEv, srvWritesOk evs = true →
      (Server.srvPumpRun evs.length
          { evs := evs, written := [], done := false }).written
        = (srvChunksUpTo evs).flatten) ∧
    (∀ netEvs engEvs : List Server.SrvEv,
      srvWritesOk netEvs = true → srvWritesOk engEvs = true →
      (Server.handle_client netEvs engEvs).engineInBytes
          = (srvChunksUpTo netEvs).flatten ∧
      (Server.handle_client netEvs engEvs).netOutBytes
          = (srvChunksUpTo engEvs).flatten) ∧
    (∀ (cfg : Client.Config) (evs : List Client.NetEv), netWritesOk evs = true →
      (Client.clientStdoutRun cfg evs.length (Client.initState [] evs)).stdoutBytes
        = (clientChunksUpTo evs).flatten) := by
  refine ⟨fun evs h => ?_, fun a b ha hb => ⟨?_, ?_⟩, fun cfg evs h => ?_⟩
  · simpa using srvPumpRun_written evs [] h
  · simpa [Server.handle_client] using srvPumpRun_written a [] ha
  · simpa [Server.handle_client] using srvPumpRun_written b [] hb
  · simpa using clientStdoutRun_written cfg evs (Client.initState [] evs) rfl rfl rfl h

/-- C1 witness: fidelity evaluated on concrete traffic — two server
chunks concatenate to `[1, 2, 3]`; a `handle_client` session forwards
`uci` to the engine and `ok` back to the socket; the client inbound pump
forwards `[7]` then `[8]` across an interleaved timeout. -/
theorem claim_C1_byte_fidelity_witness :
    (Server.srvPumpRun 3
        { evs := [Server.SrvEv.chunk [1, 2] true, Server.SrvEv.chunk [3] true,
                  Server.SrvEv.eof],
          written := [], done := false }).written = [1, 2, 3] ∧
    (Server.handle_client [Server.SrvEv.chunk [117, 99, 105] true, Server.SrvEv.eof]
        [Server.SrvEv.chunk [111, 107] true, Server.SrvEv.eof]).engineInBytes
      = [117, 99, 105] ∧
    (Client.clientStdoutRun ⟨"a", "l", true⟩ 4
        (Client.initState []
          [Client.NetEv.chunk [7] true true true true, Client.NetEv.timeout,
           Client.NetEv.chunk [8] true false true true, Client.NetEv.eof])).stdoutBytes
      = [7, 8] := by
  refine ⟨?_, ?_, ?_⟩
  · exact (claim_C1_byte_fidelity.1
      [Server.SrvEv.chunk [1, 2] true, Server.SrvEv.chunk [3] true, Server.SrvEv.eof]
      (by decide)).trans (by decide)
  · exact ((claim_C1_byte_fidelity.2.1
      [Server.SrvEv.chunk [117, 99, 105] true, Server.SrvEv.eof]
      [Server.SrvEv.chunk [111, 107] true, Server.SrvEv.eof]
      (by decide) (by decide)).1).trans (by decide)
  · exact (claim_C1_byte_fidelity.2.2 ⟨"a", "l", true⟩
      [Client.NetEv.chunk [7] true true true true, Client.NetEv.timeout,
       Client.NetEv.chunk [8] true false true true, Client.NetEv.eof]
      (by decide)).trans (by decide)
